import Mathlib

/-
Verification development for the AWS Config reset tool
(src/aws_config_reset.py).  The definitions below are a shallow
embedding of that script: pure helpers are translated directly, the
remote API is modelled as explicit inventory data plus per-call
behaviour functions, and every remote delete/stop invocation, emitted
action record and per-artifact error is tracked explicitly so that the
observable behaviour of a run can be stated and proved.
-/

/-! ## String helpers: Python substring test and lower-casing -/

/-- Lower-case a string character by character (Python str.lower on the
ASCII messages that appear here). -/
def strLower (s : String) : String := ⟨s.data.map Char.toLower⟩

/-- Does the second list occur at the head of the first argument list? -/
def leadsChars : List Char → List Char → Bool
  | [], _ => true
  | _ :: _, [] => false
  | a :: as, b :: bs => a == b && leadsChars as bs

/-- Does the needle occur as a contiguous sublist of the haystack? -/
def containsChars (needle : List Char) : List Char → Bool
  | [] => needle.isEmpty
  | c :: rest => leadsChars needle (c :: rest) || containsChars needle rest

/-- Python membership test sub in s on strings (substring containment). -/
def strHasSub (s sub : String) : Bool := containsChars sub.data s.data

/-! ## fnmatch-style glob matching

Embedding of Python fnmatch.fnmatch semantics: a star matches any
(possibly empty) run of characters, a question mark matches one
character, a bracketed set matches one character from the set (ranges
with a dash, negation with a leading exclamation mark, a closing
bracket listed first is literal, an unclosed bracket is a literal
bracket character).  The recursion is fuelled; the fuel supplied by
fnmatchb strictly exceeds the maximal recursion depth, so the
out-of-fuel branch is unreachable there. -/

/-- Scan a character-class body up to the closing bracket, returning the
class content and the remainder of the pattern, or none when the class
is unclosed. -/
def scanToClose : List Char → Option (List Char × List Char)
  | [] => none
  | ']' :: rest => some ([], rest)
  | c :: rest =>
    match scanToClose rest with
    | some (a, b) => some (c :: a, b)
    | none => none

/-- Split a pattern tail that follows an opening bracket into the
negation flag, the class content and the rest of the pattern. -/
def splitClass (l : List Char) : Option (Bool × List Char × List Char) :=
  match l with
  | '!' :: t =>
    match t with
    | ']' :: t2 => (scanToClose t2).map (fun p => (true, ']' :: p.1, p.2))
    | _ => (scanToClose t).map (fun p => (true, p.1, p.2))
  | ']' :: t2 => (scanToClose t2).map (fun p => (false, ']' :: p.1, p.2))
  | _ => (scanToClose l).map (fun p => (false, p.1, p.2))

/-- Membership of a character in a class body, with dash ranges. -/
def classMem : List Char → Char → Bool
  | [], _ => false
  | a :: '-' :: b :: rest, c =>
    (decide (a ≤ c) && decide (c ≤ b)) || classMem rest c
  | a :: rest, c => a == c || classMem rest c

/-- Apply the negation flag to class membership. -/
def classMatch (neg : Bool) (cls : List Char) (c : Char) : Bool :=
  if neg then !(classMem cls c) else classMem cls c

/-- Fuelled glob matcher over character lists. -/
def globMatchAux : Nat → List Char → List Char → Bool
  | 0, _, _ => false
  | Nat.succ fuel, pat, s =>
    match pat, s with
    | [], [] => true
    | [], _ :: _ => false
    | '*' :: ps, [] => globMatchAux fuel ps []
    | '*' :: ps, c :: cs =>
      globMatchAux fuel ps (c :: cs) || globMatchAux fuel ('*' :: ps) cs
    | '?' :: ps, _ :: cs => globMatchAux fuel ps cs
    | '?' :: _, [] => false
    | '[' :: ps, str =>
      (match splitClass ps with
       | some (neg, cls, rest) =>
         match str with
         | c :: cs => classMatch neg cls c && globMatchAux fuel rest cs
         | [] => false
       | none =>
         match str with
         | c :: cs => ('[' == c) && globMatchAux fuel ps cs
         | [] => false)
    | p :: ps, c :: cs => p == c && globMatchAux fuel ps cs
    | _ :: _, [] => false

/-- Python fnmatch.fnmatch(name, pat). -/
def fnmatchb (name pat : String) : Bool :=
  globMatchAux (pat.data.length + name.data.length + 1) pat.data name.data

/-! ## The include/exclude filter (function matches in the source) -/

/-- Glob include/exclude matching for names, as in the source: a
non-empty include list must be matched by at least one pattern, then a
match against any exclude pattern rejects the name. -/
def matchesName (name : String) (includePatterns excludePatterns : List String) : Bool :=
  if !includePatterns.isEmpty && !(includePatterns.any (fun p => fnmatchb name p)) then
    false
  else if !excludePatterns.isEmpty && excludePatterns.any (fun p => fnmatchb name p) then
    false
  else true

/-! ## Errors and the retrying invoker (function retry_call in the source) -/

/-- A Python-level failure from a remote call: either a botocore
ClientError carrying an error code and the full exception text, or any
other exception. -/
inductive PyError where
  | client (code : String) (msg : String)
  | other (msg : String)
deriving DecidableEq

/-- Text that retry_call searches for in the lower-cased exception. -/
def rateToken : String := "rate exceeded"

/-- The transient-error test of retry_call: ClientError whose code is
ResourceInUseException, ThrottlingException or TooManyRequestsException,
or whose lower-cased text mentions a rate being exceeded.  Any other
exception is terminal. -/
def isTransient : PyError → Bool
  | PyError.client code msg =>
    (code == "ResourceInUseException" || code == "ThrottlingException" ||
      code == "TooManyRequestsException")
      || strHasSub (strLower msg) rateToken
  | PyError.other _ => false

/-- Module-level retry constants of the source. -/
def DEFAULT_MAX_RETRIES : Nat := 5

/-- Module-level backoff constant of the source (seconds). -/
def DEFAULT_BACKOFF_SEC : Nat := 3

/-- Observable outcome of one retry_call invocation: the value returned
or the exception propagated (ok none encodes the loop body never
running, which Python reaches only with a zero retry budget), the number
of times the wrapped operation was invoked, and the sleeps performed
between attempts, in order. -/
structure RetryResult (α : Type) where
  result : Except PyError (Option α)
  attempts : Nat
  sleeps : List Nat

/-- Fuelled loop body of retry_call; the behaviour of the wrapped
operation is a function from the attempt number (1-based) to its
outcome on that attempt. -/
def retryAux (fn : Nat → Except PyError α) (maxRetries backoff : Nat) :
    Nat → Nat → RetryResult α
  | 0, _ => ⟨Except.ok none, 0, []⟩
  | Nat.succ fuel, attempt =>
    if attempt ≤ maxRetries then
      match fn attempt with
      | Except.ok v => ⟨Except.ok (some v), 1, []⟩
      | Except.error e =>
        if isTransient e && decide (attempt < maxRetries) then
          let r := retryAux fn maxRetries backoff fuel (attempt + 1)
          ⟨r.result, r.attempts + 1, backoff * attempt :: r.sleeps⟩
        else ⟨Except.error e, 1, []⟩
    else ⟨Except.ok none, 0, []⟩

/-- retry_call: invoke the operation, sleeping backoff * attempt and
retrying on a transient failure while attempts remain, propagating any
other failure (and a transient failure on the last attempt) at once. -/
def retry_call (fn : Nat → Except PyError α) (maxRetries backoff : Nat) :
    RetryResult α :=
  retryAux fn maxRetries backoff maxRetries 1

/-! ## Action records and stage results -/

/-- The artifact kinds handled by the script, plus Aggregator, which the
specification mentions but for which the script has no stage. -/
inductive ArtifactKind where
  | Recorder
  | Channel
  | ConformancePack
  | Remediation
  | Rule
  | Aggregator
deriving DecidableEq

/-- Outcome of a recorded action. -/
inductive Outcome where
  | Planned
  | Succeeded
  | Failed
deriving DecidableEq

/-- One observable action of a stage on one artifact. -/
structure ActionRecord where
  kind : ArtifactKind
  name : String
  outcome : Outcome
deriving DecidableEq

/-- Observable result of one deletion stage: the list the Python
function returns, the action records emitted in order, every remote
delete invocation issued (one entry per API call, naming the artifact),
and the artifacts recorded as failed. -/
structure StageResult where
  returned : List String
  trace : List ActionRecord
  calls : List String
  errors : List String
deriving DecidableEq

/-- The empty stage result (a stage that returns early). -/
def emptyStage : StageResult := ⟨[], [], [], []⟩

/-- Dry-run branch of a stage: every item is recorded as planned, no
remote delete is issued. -/
def plannedStage (k : ArtifactKind) (tag : String → String)
    (items : List String) : StageResult :=
  ⟨items.map tag, items.map (fun n => ⟨k, n, Outcome.Planned⟩), [], []⟩

/-- Live deletion loop shared by the stages: each item is deleted
through retry_call with the module defaults; a success appends the
(tagged) name to the returned list, a failure records the item as an
error, and in both cases the loop continues with the next item. -/
def deleteLoop (k : ArtifactKind) (tag : String → String)
    (beh : String → Nat → Except PyError Unit) : List String → StageResult
  | [] => emptyStage
  | r :: rest =>
    let res := retry_call (beh r) DEFAULT_MAX_RETRIES DEFAULT_BACKOFF_SEC
    let s := deleteLoop k tag beh rest
    match res.result with
    | Except.ok _ =>
      ⟨tag r :: s.returned, ⟨k, r, Outcome.Succeeded⟩ :: s.trace,
        List.replicate res.attempts r ++ s.calls, s.errors⟩
    | Except.error _ =>
      ⟨s.returned, ⟨k, r, Outcome.Failed⟩ :: s.trace,
        List.replicate res.attempts r ++ s.calls, r :: s.errors⟩

/-! ## Listing and classifying Config rules -/

/-- A listed Config rule: its name and its Source.Owner field. -/
structure ConfigRule where
  name : String
  sourceOwner : String
deriving DecidableEq

/-- Reserved naming marker of Security-Hub-managed rules. -/
def secHubToken : String := "SecurityHub"

/-- Security-Hub detection used while listing rules: Source.Owner is
AWS and the name mentions SecurityHub. -/
def shDetect (r : ConfigRule) : Bool :=
  r.sourceOwner == "AWS" && strHasSub r.name secHubToken

/-- The classification loop inside list_config_rules: accumulate, in
listing order, all names, the detected Security-Hub rule names, and the
remaining regular rule names. -/
def classifyListed : List ConfigRule → List String × List String × List String
  | [] => ([], [], [])
  | r :: rest =>
    let p := classifyListed rest
    ⟨r.name :: p.1,
      if shDetect r then r.name :: p.2.1 else p.2.1,
      if shDetect r then p.2.2 else r.name :: p.2.2⟩

/-- The pagination loop of list_config_rules: follow the continuation
token page by page, concatenating every page. -/
def listRulesLoop : List (List ConfigRule) → List ConfigRule
  | [] => []
  | page :: rest => page ++ listRulesLoop rest

/-- list_config_rules: paginate through every page of rules, run the
Security-Hub analysis, and return all rule names. -/
def list_config_rules (pages : List (List ConfigRule)) : List String :=
  (classifyListed (listRulesLoop pages)).1

/-- The preservation/filter loop of delete_config_rules: a rule whose
name mentions SecurityHub is preserved before any filtering; otherwise
the rule is kept for deletion when it passes include/exclude matching.
Returns (safe rules, preserved rules) in listing order. -/
def classifyRules (includePatterns excludePatterns : List String) :
    List String → List String × List String
  | [] => ([], [])
  | n :: rest =>
    let p := classifyRules includePatterns excludePatterns rest
    if strHasSub n secHubToken then (p.1, n :: p.2)
    else if matchesName n includePatterns excludePatterns then (n :: p.1, p.2)
    else p

/-! ## The deletion stages -/

/-- delete_config_rules: preserve Security-Hub-named rules, filter the
rest, then either plan (dry run) or delete through retry_call. -/
def delete_config_rules (ruleNames includePatterns excludePatterns : List String)
    (dryRun : Bool) (beh : String → Nat → Except PyError Unit) : StageResult :=
  let p := classifyRules includePatterns excludePatterns ruleNames
  if p.1.isEmpty then emptyStage
  else if dryRun then plannedStage ArtifactKind.Rule id p.1
  else deleteLoop ArtifactKind.Rule id beh p.1

/-- delete_remediation_configurations: a single describe call (no
continuation token is followed) yields the first page only, which is
then planned or deleted. -/
def delete_remediation_configurations (pages : List (List String))
    (dryRun : Bool) (beh : String → Nat → Except PyError Unit) : StageResult :=
  let configs := pages.headD []
  if configs.isEmpty then emptyStage
  else if dryRun then plannedStage ArtifactKind.Remediation id configs
  else deleteLoop ArtifactKind.Remediation id beh configs

/-- delete_conformance_packs: a single describe call (no continuation
token is followed) yields the first page only, which is then planned or
deleted. -/
def delete_conformance_packs (pages : List (List String))
    (dryRun : Bool) (beh : String → Nat → Except PyError Unit) : StageResult :=
  let packs := pages.headD []
  if packs.isEmpty then emptyStage
  else if dryRun then plannedStage ArtifactKind.ConformancePack id packs
  else deleteLoop ArtifactKind.ConformancePack id beh packs

/-- Tag of a recorder entry in the combined recorders/channels list. -/
def recorderTag (n : String) : String := "recorder:" ++ n

/-- Tag of a delivery-channel entry in the combined list. -/
def channelTag (n : String) : String := "channel:" ++ n

/-- delete_config_recorders_and_channels: delete every configuration
recorder, then every delivery channel, combining both into one returned
list with kind tags. -/
def delete_config_recorders_and_channels (recorders channels : List String)
    (dryRun : Bool) (behR behC : String → Nat → Except PyError Unit) : StageResult :=
  let recS :=
    if dryRun then plannedStage ArtifactKind.Recorder recorderTag recorders
    else deleteLoop ArtifactKind.Recorder recorderTag behR recorders
  let chanS :=
    if dryRun then plannedStage ArtifactKind.Channel channelTag channels
    else deleteLoop ArtifactKind.Channel channelTag behC channels
  ⟨recS.returned ++ chanS.returned, recS.trace ++ chanS.trace,
    recS.calls ++ chanS.calls, recS.errors ++ chanS.errors⟩


/-! ## A region's environment and the per-region pipeline -/

/-- The remote environment one region's client sees: whether the client
can be constructed at all, the paged inventories of each artifact kind,
and the behaviour of each delete endpoint (per artifact name and
attempt number). -/
structure RegionEnv where
  clientOk : Bool
  rulePages : List (List ConfigRule)
  remediationPages : List (List String)
  packPages : List (List String)
  recorders : List String
  channels : List String
  deleteRuleBeh : String → Nat → Except PyError Unit
  deleteRemBeh : String → Nat → Except PyError Unit
  deletePackBeh : String → Nat → Except PyError Unit
  deleteRecorderBeh : String → Nat → Except PyError Unit
  deleteChannelBeh : String → Nat → Except PyError Unit

/-- The run configuration the orchestrator consumes. -/
structure Args where
  includePatterns : List String
  excludePatterns : List String
  dryRun : Bool

/-- The per-region report dictionary the script builds. -/
structure RegionReport where
  region : String
  rules : List String
  remediations : List String
  conformance_packs : List String
  recorders_channels : List String
  notes : List String
deriving DecidableEq

/-- Everything observable about one region's processing: the report the
script returns plus the emitted action records, the remote delete/stop
invocations issued, and the per-artifact errors recorded, each in
emission order. -/
structure RegionResult where
  report : RegionReport
  trace : List ActionRecord
  calls : List String
  errors : List String

/-- The body of region_reset once the region's client has been
constructed: list rules and run the rule stage (only when some rule was
listed), then the remediation, conformance-pack and
recorders-and-channels stages, in that textual order.  When no rule was
listed the summary line raises a Python NameError on the unassigned
deleted_rules variable, which the surrounding handler records as a
note. -/
def region_reset_ok (region : String) (env : RegionEnv) (args : Args) : RegionResult :=
  let names := list_config_rules env.rulePages
  let rulesStage :=
    if names.isEmpty then emptyStage
    else delete_config_rules names args.includePatterns args.excludePatterns
      args.dryRun env.deleteRuleBeh
  let remStage :=
    delete_remediation_configurations env.remediationPages args.dryRun env.deleteRemBeh
  let packStage :=
    delete_conformance_packs env.packPages args.dryRun env.deletePackBeh
  let rcStage :=
    delete_config_recorders_and_channels env.recorders env.channels args.dryRun
      env.deleteRecorderBeh env.deleteChannelBeh
  { report :=
      { region := region
        rules := rulesStage.returned
        remediations := remStage.returned
        conformance_packs := packStage.returned
        recorders_channels := rcStage.returned
        notes :=
          if names.isEmpty then ["Error: name 'deleted_rules' is not defined"] else [] }
    trace := rulesStage.trace ++ remStage.trace ++ packStage.trace ++ rcStage.trace
    calls := rulesStage.calls ++ remStage.calls ++ packStage.calls ++ rcStage.calls
    errors := rulesStage.errors ++ remStage.errors ++ packStage.errors ++ rcStage.errors }

/-- region_reset: client construction happens before the internal
try-block, so its failure escapes to the caller; otherwise the pipeline
runs and a report is always returned. -/
def region_reset (region : String) (env : RegionEnv) (args : Args) :
    Except String RegionResult :=
  if env.clientOk then Except.ok (region_reset_ok region env args)
  else Except.error ("client construction failed for " ++ region)

/-! ## The main loop over regions -/

/-- The region loop of main: each region is processed inside a
try-block; a region whose processing raises (client construction
failure) is logged and skipped, contributing nothing to the collected
reports. -/
def main_regions_loop (args : Args) (envs : List (String × RegionEnv)) :
    List RegionResult :=
  envs.filterMap (fun p =>
    match region_reset p.1 p.2 args with
    | Except.ok r => some r
    | Except.error _ => none)

/-- The consolidated report main serializes: the reports collected by
the region loop, in region order. -/
def main_reports (args : Args) (envs : List (String × RegionEnv)) :
    List RegionReport :=
  (main_regions_loop args envs).map (fun r => r.report)

/-- All per-artifact error records produced across the collected
regions. -/
def main_errors (args : Args) (envs : List (String × RegionEnv)) : List String :=
  (main_regions_loop args envs).foldr (fun r acc => r.errors ++ acc) []

/-- The process exit status of main: 1 when neither a single region nor
all regions was selected (argument validation), and 0 otherwise — main
ends by writing the report file and returning normally whatever errors
occurred during processing. -/
def main_exit_code (regionSelectionGiven : Bool) : Nat :=
  if regionSelectionGiven then 0 else 1

/-- A region environment with an empty inventory and always-succeeding
delete endpoints; concrete instances below override single fields. -/
def emptyEnv : RegionEnv :=
  { clientOk := true
    rulePages := []
    remediationPages := []
    packPages := []
    recorders := []
    channels := []
    deleteRuleBeh := fun _ _ => Except.ok ()
    deleteRemBeh := fun _ _ => Except.ok ()
    deletePackBeh := fun _ _ => Except.ok ()
    deleteRecorderBeh := fun _ _ => Except.ok ()
    deleteChannelBeh := fun _ _ => Except.ok () }

/-- Dry-run configuration with no patterns. -/
def argsDry : Args := ⟨[], [], true⟩

/-- Live configuration with no patterns. -/
def argsLive : Args := ⟨[], [], false⟩

/-- A region environment with one artifact of every kind the script
handles, all deletes succeeding. -/
def envFull : RegionEnv :=
  { emptyEnv with
    rulePages := [[⟨"rule-1", "CUSTOM_LAMBDA"⟩]]
    remediationPages := [["rem-1"]]
    packPages := [["pack-1"]]
    recorders := ["rec-1"]
    channels := ["chan-1"] }

/-- A region environment with a single rule whose deletion always fails
with a terminal authorization error. -/
def envFail : RegionEnv :=
  { emptyEnv with
    rulePages := [[⟨"rule-1", "CUSTOM_LAMBDA"⟩]]
    deleteRuleBeh := fun _ _ =>
      Except.error (PyError.client ("AccessDeniedException") ("denied")) }

/-- A region environment whose client cannot be constructed. -/
def envNoClient : RegionEnv := { emptyEnv with clientOk := false }

/-- An operation that fails with a throttling error on every attempt. -/
def fnAllTransient : Nat → Except PyError Nat :=
  fun _ => Except.error (PyError.client ("ThrottlingException") ("Rate exceeded"))

/-- An operation that is throttled on attempts 1 and 2 and succeeds on
attempt 3. -/
def fnClearsAt3 : Nat → Except PyError Nat :=
  fun k =>
    if k < 3 then Except.error (PyError.client ("ResourceInUseException") ("in use"))
    else Except.ok 42

/-- An operation that fails with a terminal (non-client) error. -/
def fnTerminal : Nat → Except PyError Nat :=
  fun _ => Except.error (PyError.other ("boom"))

/-- Rule-delete behaviour that rejects exactly the rule named bad-rule
with a terminal authorization error. -/
def behBadRule : String → Nat → Except PyError Unit :=
  fun r _ =>
    if r == "bad-rule" then
      Except.error (PyError.client ("AccessDeniedException") ("denied"))
    else Except.ok ()

/-- The kind order the specification prescribes for the per-region
pipeline (stop recorders, delete channels, packs, remediations, rules,
aggregators). -/
def specStageIdx : ArtifactKind → Nat
  | ArtifactKind.Recorder => 0
  | ArtifactKind.Channel => 1
  | ArtifactKind.ConformancePack => 2
  | ArtifactKind.Remediation => 3
  | ArtifactKind.Rule => 4
  | ArtifactKind.Aggregator => 5

/-! ## Helper lemmas about the classification and deletion loops -/

theorem mem_safe_classifyRules {incPs excPs : List String} :
    ∀ {l : List String} {x : String}, x ∈ (classifyRules incPs excPs l).1 →
      x ∈ l ∧ strHasSub x secHubToken = false ∧ matchesName x incPs excPs = true := by
  intro l
  induction l with
  | nil => intro x hx; simp [classifyRules] at hx
  | cons n rest ih =>
    intro x hx
    simp only [classifyRules] at hx
    split at hx
    · rename_i h1
      rcases ih hx with ⟨h2, h3, h4⟩
      exact ⟨List.mem_cons_of_mem _ h2, h3, h4⟩
    · split at hx
      · rename_i h1 h2
        rcases List.mem_cons.mp hx with h | h
        · subst h
          exact ⟨List.mem_cons_self _ _, Bool.eq_false_iff.mpr (by simpa using h1), h2⟩
        · rcases ih h with ⟨h3, h4, h5⟩
          exact ⟨List.mem_cons_of_mem _ h3, h4, h5⟩
      · rcases ih hx with ⟨h2, h3, h4⟩
        exact ⟨List.mem_cons_of_mem _ h2, h3, h4⟩

theorem mem_preserved_classifyRules {incPs excPs : List String} :
    ∀ {l : List String} {x : String}, x ∈ (classifyRules incPs excPs l).2 →
      strHasSub x secHubToken = true := by
  intro l
  induction l with
  | nil => intro x hx; simp [classifyRules] at hx
  | cons n rest ih =>
    intro x hx
    simp only [classifyRules] at hx
    split at hx
    · rename_i h1
      rcases List.mem_cons.mp hx with h | h
      · subst h; exact h1
      · exact ih h
    · split at hx
      · exact ih hx
      · exact ih hx

theorem preserved_of_mem_classifyRules {incPs excPs : List String} :
    ∀ {l : List String} {x : String}, x ∈ l → strHasSub x secHubToken = true →
      x ∈ (classifyRules incPs excPs l).2 := by
  intro l
  induction l with
  | nil => intro x hx; simp at hx
  | cons n rest ih =>
    intro x hx hsub
    simp only [classifyRules]
    rcases List.mem_cons.mp hx with h | h
    · subst h
      rw [if_pos hsub]
      exact List.mem_cons_self _ _
    · split
      · exact List.mem_cons_of_mem _ (ih h hsub)
      · split
        · exact ih h hsub
        · exact ih h hsub

theorem deleteLoop_returned_mem {k : ArtifactKind} {tag : String → String}
    {beh : String → Nat → Except PyError Unit} :
    ∀ {l : List String} {x : String}, x ∈ (deleteLoop k tag beh l).returned →
      ∃ r ∈ l, x = tag r ∧
        ∃ w, (retry_call (beh r) DEFAULT_MAX_RETRIES DEFAULT_BACKOFF_SEC).result =
          Except.ok w := by
  intro l
  induction l with
  | nil => intro x hx; simp [deleteLoop, emptyStage] at hx
  | cons r rest ih =>
    intro x hx
    simp only [deleteLoop] at hx
    rcases hres : (retry_call (beh r) DEFAULT_MAX_RETRIES DEFAULT_BACKOFF_SEC).result with e | w
    · rw [hres] at hx
      simp only at hx
      rcases ih hx with ⟨r', h1, h2, h3⟩
      exact ⟨r', List.mem_cons_of_mem _ h1, h2, h3⟩
    · rw [hres] at hx
      simp only at hx
      rcases List.mem_cons.mp hx with h | h
      · exact ⟨r, List.mem_cons_self _ _, h, w, hres⟩
      · rcases ih h with ⟨r', h1, h2, h3⟩
        exact ⟨r', List.mem_cons_of_mem _ h1, h2, h3⟩

theorem deleteLoop_calls_mem {k : ArtifactKind} {tag : String → String}
    {beh : String → Nat → Except PyError Unit} :
    ∀ {l : List String} {x : String}, x ∈ (deleteLoop k tag beh l).calls → x ∈ l := by
  intro l
  induction l with
  | nil => intro x hx; simp [deleteLoop, emptyStage] at hx
  | cons r rest ih =>
    intro x hx
    simp only [deleteLoop] at hx
    rcases hres : (retry_call (beh r) DEFAULT_MAX_RETRIES DEFAULT_BACKOFF_SEC).result with e | w <;>
      rw [hres] at hx <;> simp only at hx <;>
      rcases List.mem_append.mp hx with h | h
    · rcases List.eq_of_mem_replicate h with rfl
      exact List.mem_cons_self _ _
    · exact List.mem_cons_of_mem _ (ih h)
    · rcases List.eq_of_mem_replicate h with rfl
      exact List.mem_cons_self _ _
    · exact List.mem_cons_of_mem _ (ih h)

theorem deleteLoop_trace_mem {k : ArtifactKind} {tag : String → String}
    {beh : String → Nat → Except PyError Unit} :
    ∀ {l : List String} {rec : ActionRecord}, rec ∈ (deleteLoop k tag beh l).trace →
      rec.kind = k ∧ rec.name ∈ l := by
  intro l
  induction l with
  | nil => intro rec hx; simp [deleteLoop, emptyStage] at hx
  | cons r rest ih =>
    intro rec hx
    simp only [deleteLoop] at hx
    rcases hres : (retry_call (beh r) DEFAULT_MAX_RETRIES DEFAULT_BACKOFF_SEC).result with e | w <;>
      rw [hres] at hx <;> simp only at hx <;>
      rcases List.mem_cons.mp hx with h | h
    · subst h; exact ⟨rfl, List.mem_cons_self _ _⟩
    · rcases ih h with ⟨h1, h2⟩
      exact ⟨h1, List.mem_cons_of_mem _ h2⟩
    · subst h; exact ⟨rfl, List.mem_cons_self _ _⟩
    · rcases ih h with ⟨h1, h2⟩
      exact ⟨h1, List.mem_cons_of_mem _ h2⟩

theorem deleteLoop_errors_of_fail {k : ArtifactKind} {tag : String → String}
    {beh : String → Nat → Except PyError Unit} :
    ∀ {l : List String} {r : String} {e : PyError}, r ∈ l →
      (retry_call (beh r) DEFAULT_MAX_RETRIES DEFAULT_BACKOFF_SEC).result =
        Except.error e →
      r ∈ (deleteLoop k tag beh l).errors := by
  intro l
  induction l with
  | nil => intro r e hr; simp at hr
  | cons n rest ih =>
    intro r e hr hres
    simp only [deleteLoop]
    rcases List.mem_cons.mp hr with h | h
    · subst h
      rw [hres]
      exact List.mem_cons_self _ _
    · rcases hres2 : (retry_call (beh n) DEFAULT_MAX_RETRIES DEFAULT_BACKOFF_SEC).result with e2 | w2 <;>
        simp only
      · exact List.mem_cons_of_mem _ (ih h hres)
      · exact ih h hres

theorem deleteLoop_returned_of_ok {k : ArtifactKind} {tag : String → String}
    {beh : String → Nat → Except PyError Unit} :
    ∀ {l : List String} {r : String} {w : Option Unit}, r ∈ l →
      (retry_call (beh r) DEFAULT_MAX_RETRIES DEFAULT_BACKOFF_SEC).result =
        Except.ok w →
      tag r ∈ (deleteLoop k tag beh l).returned := by
  intro l
  induction l with
  | nil => intro r w hr; simp at hr
  | cons n rest ih =>
    intro r w hr hres
    simp only [deleteLoop]
    rcases List.mem_cons.mp hr with h | h
    · subst h
      rw [hres]
      exact List.mem_cons_self _ _
    · rcases hres2 : (retry_call (beh n) DEFAULT_MAX_RETRIES DEFAULT_BACKOFF_SEC).result with e2 | w2 <;>
        simp only
      · exact ih h hres
      · exact List.mem_cons_of_mem _ (ih h hres)

theorem plannedStage_trace_mem {k : ArtifactKind} {tag : String → String}
    {items : List String} {rec : ActionRecord} :
    rec ∈ (plannedStage k tag items).trace →
      rec.kind = k ∧ rec.name ∈ items ∧ rec.outcome = Outcome.Planned := by
  intro hx
  simp only [plannedStage, List.mem_map] at hx
  rcases hx with ⟨n, hn, rfl⟩
  exact ⟨rfl, hn, rfl⟩

theorem plannedStage_returned {k : ArtifactKind} {tag : String → String}
    {items : List String} : (plannedStage k tag items).returned = items.map tag := rfl

theorem plannedStage_calls {k : ArtifactKind} {tag : String → String}
    {items : List String} : (plannedStage k tag items).calls = [] := rfl

theorem plannedStage_errors {k : ArtifactKind} {tag : String → String}
    {items : List String} : (plannedStage k tag items).errors = [] := rfl

theorem map_kind_eq_replicate {l : List ActionRecord} {k : ArtifactKind}
    (h : ∀ rec ∈ l, rec.kind = k) :
    l.map (fun rec => rec.kind) = List.replicate l.length k := by
  induction l with
  | nil => rfl
  | cons a rest ih =>
    simp only [List.map_cons, List.length_cons, List.replicate_succ]
    exact List.cons_eq_cons.mpr
      ⟨h a (List.mem_cons_self _ _), ih (fun rec hr => h rec (List.mem_cons_of_mem _ hr))⟩

theorem listRulesLoop_eq_flatten : ∀ pages : List (List ConfigRule),
    listRulesLoop pages = pages.flatten := by
  intro pages
  induction pages with
  | nil => rfl
  | cons page rest ih => simp [listRulesLoop, ih]

theorem classifyListed_names : ∀ l : List ConfigRule,
    (classifyListed l).1 = l.map (fun r => r.name) := by
  intro l
  induction l with
  | nil => rfl
  | cons r rest ih => simp [classifyListed, ih]

/-- Every record in the trace of the rule-deletion stage is a Rule
record whose name is one of the safe (non-preserved, filter-passing)
rules. -/
theorem delete_config_rules_trace_mem {ruleNames incPs excPs : List String}
    {dry : Bool} {beh : String → Nat → Except PyError Unit} {rec : ActionRecord} :
    rec ∈ (delete_config_rules ruleNames incPs excPs dry beh).trace →
      rec.kind = ArtifactKind.Rule ∧ rec.name ∈ (classifyRules incPs excPs ruleNames).1 := by
  intro hx
  simp only [delete_config_rules] at hx
  split at hx
  · simp [emptyStage] at hx
  · split at hx
    · rcases plannedStage_trace_mem hx with ⟨h1, h2, h3⟩
      exact ⟨h1, h2⟩
    · exact deleteLoop_trace_mem hx

/-- Members of the returned list of the rule-deletion stage are safe
rules (the tag is the identity there). -/
theorem delete_config_rules_returned_mem {ruleNames incPs excPs : List String}
    {dry : Bool} {beh : String → Nat → Except PyError Unit} {x : String} :
    x ∈ (delete_config_rules ruleNames incPs excPs dry beh).returned →
      x ∈ (classifyRules incPs excPs ruleNames).1 := by
  intro hx
  simp only [delete_config_rules] at hx
  split at hx
  · simp [emptyStage] at hx
  · split at hx
    · rw [plannedStage_returned, List.map_id] at hx
      exact hx
    · rcases deleteLoop_returned_mem hx with ⟨r, h1, h2, _⟩
      simpa [h2] using h1

/-- Members of the call list of the rule-deletion stage are safe
rules. -/
theorem delete_config_rules_calls_mem {ruleNames incPs excPs : List String}
    {dry : Bool} {beh : String → Nat → Except PyError Unit} {x : String} :
    x ∈ (delete_config_rules ruleNames incPs excPs dry beh).calls →
      x ∈ (classifyRules incPs excPs ruleNames).1 := by
  intro hx
  simp only [delete_config_rules] at hx
  split at hx
  · simp [emptyStage] at hx
  · split at hx
    · rw [plannedStage_calls] at hx
      simp at hx
    · exact deleteLoop_calls_mem hx

/-! ## Helper lemmas about the retrying invoker -/

theorem retryAux_step_ok {α : Type} (fn : Nat → Except PyError α) (n b f a : Nat)
    (v : α) (h2 : a ≤ n) (hfv : fn a = Except.ok v) :
    retryAux fn n b (f + 1) a = ⟨Except.ok (some v), 1, []⟩ := by
  simp [retryAux, h2, hfv]

theorem retryAux_step_trans {α : Type} (fn : Nat → Except PyError α) (n b f a : Nat)
    (e : PyError) (hfe : fn a = Except.error e) (hte : isTransient e = true)
    (hlt : a < n) :
    retryAux fn n b (f + 1) a =
      ⟨(retryAux fn n b f (a + 1)).result,
        (retryAux fn n b f (a + 1)).attempts + 1,
        b * a :: (retryAux fn n b f (a + 1)).sleeps⟩ := by
  simp [retryAux, Nat.le_of_lt hlt, hfe, hte, hlt]

theorem retryAux_step_last {α : Type} (fn : Nat → Except PyError α) (n b f a : Nat)
    (e : PyError) (h2 : a ≤ n) (hfe : fn a = Except.error e) (hnlt : ¬ a < n) :
    retryAux fn n b (f + 1) a = ⟨Except.error e, 1, []⟩ := by
  simp [retryAux, h2, hfe, hnlt]

theorem retryAux_step_terminal {α : Type} (fn : Nat → Except PyError α) (n b f a : Nat)
    (e : PyError) (h2 : a ≤ n) (hfe : fn a = Except.error e)
    (hte : isTransient e = false) :
    retryAux fn n b (f + 1) a = ⟨Except.error e, 1, []⟩ := by
  simp [retryAux, h2, hfe, hte]

theorem retryAux_all_transient {α : Type} (fn : Nat → Except PyError α) (n b : Nat)
    (H : ∀ k, 1 ≤ k → k ≤ n → ∃ e, fn k = Except.error e ∧ isTransient e = true) :
    ∀ (f a : Nat), 1 ≤ a → a ≤ n → n - a < f →
      (retryAux fn n b f a).attempts = n - a + 1 ∧
      (retryAux fn n b f a).sleeps =
        (List.range (n - a)).map (fun i => b * (a + i)) ∧
      ∃ e, (retryAux fn n b f a).result = Except.error e ∧ fn n = Except.error e := by
  intro f
  induction f with
  | zero => intro a h1 h2 h3; omega
  | succ fuel ih =>
    intro a h1 h2 h3
    obtain ⟨e, hfe, hte⟩ := H a h1 h2
    by_cases hlt : a < n
    · obtain ⟨iha, ihs, e', ihr, ihn⟩ := ih (a + 1) (by omega) (by omega) (by omega)
      rw [retryAux_step_trans fn n b fuel a e hfe hte hlt]
      refine ⟨by simp [iha]; omega, ?_, e', by simpa using ihr, ihn⟩
      have hna : n - a = (n - (a + 1)) + 1 := by omega
      simp only [ihs, hna, List.range_succ_eq_map, List.map_cons, List.map_map]
      refine List.cons_eq_cons.mpr ⟨by simp, List.map_congr_left ?_⟩
      intro i _
      simp only [Function.comp]
      exact congrArg (fun m => b * m) (by omega)
    · have ha : a = n := by omega
      rw [retryAux_step_last fn n b fuel a e h2 hfe hlt]
      subst ha
      refine ⟨by simp, by simp, e, rfl, hfe⟩

theorem retryAux_clears {α : Type} (fn : Nat → Except PyError α) (n b k : Nat) (v : α)
    (hkn : k ≤ n)
    (H : ∀ j, 1 ≤ j → j < k → ∃ e, fn j = Except.error e ∧ isTransient e = true)
    (hfk : fn k = Except.ok v) :
    ∀ (f a : Nat), 1 ≤ a → a ≤ k → k - a < f →
      (retryAux fn n b f a).result = Except.ok (some v) ∧
      (retryAux fn n b f a).attempts = k - a + 1 := by
  intro f
  induction f with
  | zero => intro a h1 h2 h3; omega
  | succ fuel ih =>
    intro a h1 h2 h3
    by_cases hak : a = k
    · subst hak
      rw [retryAux_step_ok fn n b fuel a v (by omega) hfk]
      exact ⟨rfl, by simp⟩
    · have hlt : a < k := by omega
      obtain ⟨e, hfe, hte⟩ := H a h1 hlt
      obtain ⟨ihr, iha⟩ := ih (a + 1) (by omega) (by omega) (by omega)
      rw [retryAux_step_trans fn n b fuel a e hfe hte (by omega)]
      exact ⟨by simpa using ihr, by simp [iha]; omega⟩

/-! ## Dry-run behaviour of each stage -/

theorem delete_config_rules_dry_spec (names incPs excPs : List String)
    (beh : String → Nat → Except PyError Unit) :
    (delete_config_rules names incPs excPs true beh).calls = [] ∧
    ∀ rec ∈ (delete_config_rules names incPs excPs true beh).trace,
      rec.outcome = Outcome.Planned := by
  constructor
  · simp only [delete_config_rules]
    split
    · rfl
    · simp [plannedStage]
  · intro rec hrec
    simp only [delete_config_rules] at hrec
    split at hrec
    · simp [emptyStage] at hrec
    · simp only [if_pos] at hrec
      exact (plannedStage_trace_mem hrec).2.2

theorem delete_remediation_dry_spec (pages : List (List String))
    (beh : String → Nat → Except PyError Unit) :
    (delete_remediation_configurations pages true beh).calls = [] ∧
    ∀ rec ∈ (delete_remediation_configurations pages true beh).trace,
      rec.outcome = Outcome.Planned := by
  constructor
  · simp only [delete_remediation_configurations]
    split
    · rfl
    · simp [plannedStage]
  · intro rec hrec
    simp only [delete_remediation_configurations] at hrec
    split at hrec
    · simp [emptyStage] at hrec
    · simp only [if_pos] at hrec
      exact (plannedStage_trace_mem hrec).2.2

theorem delete_packs_dry_spec (pages : List (List String))
    (beh : String → Nat → Except PyError Unit) :
    (delete_conformance_packs pages true beh).calls = [] ∧
    ∀ rec ∈ (delete_conformance_packs pages true beh).trace,
      rec.outcome = Outcome.Planned := by
  constructor
  · simp only [delete_conformance_packs]
    split
    · rfl
    · simp [plannedStage]
  · intro rec hrec
    simp only [delete_conformance_packs] at hrec
    split at hrec
    · simp [emptyStage] at hrec
    · simp only [if_pos] at hrec
      exact (plannedStage_trace_mem hrec).2.2

theorem rc_dry_spec (recorders channels : List String)
    (behR behC : String → Nat → Except PyError Unit) :
    (delete_config_recorders_and_channels recorders channels true behR behC).calls = [] ∧
    ∀ rec ∈ (delete_config_recorders_and_channels recorders channels true behR behC).trace,
      rec.outcome = Outcome.Planned := by
  constructor
  · simp [delete_config_recorders_and_channels, plannedStage]
  · intro rec hrec
    simp only [delete_config_recorders_and_channels, if_pos] at hrec
    rcases List.mem_append.mp hrec with h | h <;> exact (plannedStage_trace_mem h).2.2

/-! ## Claim theorems -/

/-- C9: the include/exclude filter returns true exactly when the name
passes the include stage (an empty include list passes everything,
otherwise at least one include pattern must glob-match) and no exclude
pattern glob-matches, so exclude always wins; moreover the four
concrete examples of the specification evaluate as stated. -/
theorem c9_filter_correctness :
    (∀ (name : String) (incPs excPs : List String),
      matchesName name incPs excPs = true ↔
        ((incPs = [] ∨ ∃ p ∈ incPs, fnmatchb name p = true) ∧
          ∀ p ∈ excPs, fnmatchb name p = false)) ∧
    matchesName ("rule-abc") (["rule-*"]) ([]) = true ∧
    matchesName ("rule-abc") (["rule-*"]) (["rule-abc"]) = false ∧
    matchesName ("x") ([]) (["y-*"]) = true ∧
    matchesName ("y-1") ([]) (["y-*"]) = false := by
  refine ⟨?_, by decide, by decide, by decide, by decide⟩
  intro name incPs excPs
  simp only [matchesName]
  by_cases h1 : incPs.isEmpty <;> by_cases h2 : incPs.any (fun p => fnmatchb name p) <;>
    by_cases h3 : excPs.isEmpty <;> by_cases h4 : excPs.any (fun p => fnmatchb name p) <;>
    simp_all [List.isEmpty_iff, List.any_eq_true, List.eq_nil_iff_forall_not_mem]

/-- C1: a rule whose name carries the SecurityHub marker is preserved by
the rule-deletion stage under every configuration: it never appears in
the returned (deleted or planned) rules, no remote delete is ever issued
for it, and no action record names it — include/exclude patterns and
dry-run state notwithstanding. -/
theorem c1_protection_invariant
    (ruleNames incPs excPs : List String) (dry : Bool)
    (beh : String → Nat → Except PyError Unit) (n : String)
    (hsec : strHasSub n secHubToken = true) :
    n ∉ (delete_config_rules ruleNames incPs excPs dry beh).returned ∧
    n ∉ (delete_config_rules ruleNames incPs excPs dry beh).calls ∧
    ∀ rec ∈ (delete_config_rules ruleNames incPs excPs dry beh).trace,
      rec.name ≠ n := by
  have hsafe : n ∉ (classifyRules incPs excPs ruleNames).1 := by
    intro hmem
    rcases mem_safe_classifyRules hmem with ⟨_, h2, _⟩
    rw [hsec] at h2
    cases h2
  refine ⟨fun h => hsafe (delete_config_rules_returned_mem h),
    fun h => hsafe (delete_config_rules_calls_mem h), ?_⟩
  intro rec hrec heq
  rcases delete_config_rules_trace_mem hrec with ⟨_, hname⟩
  rw [heq] at hname
  exact hsafe hname

/-- Witness for C1 at a concrete input: a SecurityHub-named rule that
also matches the include pattern is still not among the planned
deletions. -/
theorem c1_protection_invariant_witness :
    strHasSub ("Aws-SecurityHub-extra") secHubToken = true ∧
    ("Aws-SecurityHub-extra") ∉
      (delete_config_rules (["Aws-SecurityHub-extra", "other-rule"]) (["*"]) ([])
        true (fun _ _ => Except.ok ())).returned := by
  refine ⟨by decide, ?_⟩
  exact (c1_protection_invariant (["Aws-SecurityHub-extra", "other-rule"]) (["*"])
    ([]) true (fun _ _ => Except.ok ()) ("Aws-SecurityHub-extra") (by decide)).1

/-- C10: the rule-deletion stage preserves a listed rule exactly when
the string SecurityHub occurs in its name — a pure function of the name,
independent of Source.Owner and of any include/exclude patterns — while
the listing-time Security-Hub detection also requires Source.Owner to be
AWS, so the preserved set is strictly broader than the detected set. -/
theorem c10_preservation_broader_than_detection :
    (∀ (ruleNames incPs excPs : List String) (n : String), n ∈ ruleNames →
      (n ∈ (classifyRules incPs excPs ruleNames).2 ↔
        strHasSub n secHubToken = true)) ∧
    (∀ r : ConfigRule, shDetect r = true → strHasSub r.name secHubToken = true) ∧
    (∃ r : ConfigRule, strHasSub r.name secHubToken = true ∧ shDetect r = false) := by
  refine ⟨?_, ?_, ⟨⟨"Custom-SecurityHub-rule", "CUSTOM_LAMBDA"⟩, by decide, by decide⟩⟩
  · intro ruleNames incPs excPs n hmem
    exact ⟨mem_preserved_classifyRules, preserved_of_mem_classifyRules hmem⟩
  · intro r h
    simp only [shDetect, Bool.and_eq_true] at h
    exact h.2

/-- Witness for C10 at concrete inputs: a listed SecurityHub-named rule
is in the preserved list, and a detected Security-Hub rule carries the
name marker. -/
theorem c10_preservation_broader_than_detection_witness :
    (("Aws-SecurityHub-1") ∈ (classifyRules ([]) ([]) (["Aws-SecurityHub-1"])).2 ↔
      strHasSub ("Aws-SecurityHub-1") secHubToken = true) ∧
    strHasSub (ConfigRule.mk ("Aws-SecurityHub-1") ("AWS")).name secHubToken = true := by
  refine ⟨?_, ?_⟩
  · exact (c10_preservation_broader_than_detection).1 (["Aws-SecurityHub-1"]) ([]) ([])
      ("Aws-SecurityHub-1") (by decide)
  · exact (c10_preservation_broader_than_detection).2.1
      (ConfigRule.mk ("Aws-SecurityHub-1") ("AWS")) (by decide)

/-- C3: with dryRun set, a region's whole pipeline issues no remote
delete or stop call at all, and every action record it emits is only a
plan. -/
theorem c3_dry_run_purity (region : String) (env : RegionEnv) (args : Args)
    (hdry : args.dryRun = true) :
    (region_reset_ok region env args).calls = [] ∧
    ∀ rec ∈ (region_reset_ok region env args).trace,
      rec.outcome = Outcome.Planned := by
  constructor
  · simp only [region_reset_ok, hdry]
    rw [(delete_remediation_dry_spec env.remediationPages env.deleteRemBeh).1,
      (delete_packs_dry_spec env.packPages env.deletePackBeh).1,
      (rc_dry_spec env.recorders env.channels env.deleteRecorderBeh env.deleteChannelBeh).1]
    by_cases hemp : (list_config_rules env.rulePages).isEmpty
    · simp [hemp, emptyStage]
    · simp [hemp,
        (delete_config_rules_dry_spec (list_config_rules env.rulePages)
          args.includePatterns args.excludePatterns env.deleteRuleBeh).1]
  · intro rec hrec
    simp only [region_reset_ok, hdry] at hrec
    rcases List.mem_append.mp hrec with h | h
    · rcases List.mem_append.mp h with h2 | h2
      · rcases List.mem_append.mp h2 with h3 | h3
        · by_cases hemp : (list_config_rules env.rulePages).isEmpty
          · rw [if_pos hemp] at h3
            simp [emptyStage] at h3
          · rw [if_neg hemp] at h3
            exact (delete_config_rules_dry_spec (list_config_rules env.rulePages)
              args.includePatterns args.excludePatterns env.deleteRuleBeh).2 rec h3
        · exact (delete_remediation_dry_spec env.remediationPages env.deleteRemBeh).2 rec h3
      · exact (delete_packs_dry_spec env.packPages env.deletePackBeh).2 rec h2
    · exact (rc_dry_spec env.recorders env.channels env.deleteRecorderBeh
        env.deleteChannelBeh).2 rec h

/-- Witness for C3 at a concrete input: a dry run over a region holding
one artifact of every kind issues no remote delete and plans every
action. -/
theorem c3_dry_run_purity_witness :
    argsDry.dryRun = true ∧
    (region_reset_ok ("region-a") envFull argsDry).calls = [] ∧
    ∀ rec ∈ (region_reset_ok ("region-a") envFull argsDry).trace,
      rec.outcome = Outcome.Planned := by
  refine ⟨rfl, ?_⟩
  exact c3_dry_run_purity ("region-a") envFull argsDry rfl

/-- C5: with retry budget n, an operation that fails transiently on
every attempt is invoked exactly n times with sleeps of backoff times
the attempt number between consecutive attempts and the last failure is
propagated; an operation whose transient failures clear on attempt
k at most n returns its result successfully after exactly k
invocations. -/
theorem c5_retry_bound {α : Type} (fn : Nat → Except PyError α) (n b : Nat)
    (hn : 1 ≤ n) :
    ((∀ k, 1 ≤ k → k ≤ n → ∃ e, fn k = Except.error e ∧ isTransient e = true) →
      (retry_call fn n b).attempts = n ∧
      (retry_call fn n b).sleeps = (List.range (n - 1)).map (fun i => b * (i + 1)) ∧
      ∃ e, (retry_call fn n b).result = Except.error e ∧ fn n = Except.error e) ∧
    (∀ (k : Nat) (v : α), 1 ≤ k → k ≤ n →
      (∀ j, 1 ≤ j → j < k → ∃ e, fn j = Except.error e ∧ isTransient e = true) →
      fn k = Except.ok v →
      (retry_call fn n b).result = Except.ok (some v) ∧
      (retry_call fn n b).attempts = k) := by
  constructor
  · intro H
    obtain ⟨ha, hs, e, hr, hlast⟩ :=
      retryAux_all_transient fn n b H n 1 le_rfl hn (by omega)
    refine ⟨?_, ?_, e, hr, hlast⟩
    · simp only [retry_call, ha]
      omega
    · simp only [retry_call, hs]
      exact List.map_congr_left (fun i _ => congrArg (fun m => b * m) (by omega))
  · intro k v h1 h2 H hfk
    obtain ⟨hr, ha⟩ := retryAux_clears fn n b k v h2 H hfk n 1 le_rfl h1 (by omega)
    refine ⟨hr, ?_⟩
    simp only [retry_call, ha]
    omega

/-- Witness for C5 at concrete inputs: an always-throttled operation
with budget 2 is invoked twice with one sleep of 3 seconds, and an
operation clearing on attempt 3 of 5 succeeds after 3 invocations. -/
theorem c5_retry_bound_witness :
    ((retry_call fnAllTransient 2 3).attempts = 2 ∧
      (retry_call fnAllTransient 2 3).sleeps = [3]) ∧
    ((retry_call fnClearsAt3 5 3).result = Except.ok (some 42) ∧
      (retry_call fnClearsAt3 5 3).attempts = 3) := by
  constructor
  · have h := (c5_retry_bound fnAllTransient 2 3 (by decide)).1
      (fun k h1 h2 =>
        ⟨PyError.client ("ThrottlingException") ("Rate exceeded"), rfl, by decide⟩)
    exact ⟨h.1, h.2.1.trans (by decide)⟩
  · exact (c5_retry_bound fnClearsAt3 5 3 (by decide)).2 3 42 (by decide) (by decide)
      (fun j h1 h2 =>
        ⟨PyError.client ("ResourceInUseException") ("in use"),
          by simp [fnClearsAt3, h2], by decide⟩)
      rfl

/-- C6: a terminal failure (any error outside the transient class) is
propagated by retry_call after exactly one invocation with no sleep; in
the rule-deletion stage such a failure is recorded as an error against
that specific rule, the rule is not reported deleted, and every other
rule whose deletion succeeds is still deleted. -/
theorem c6_terminal_immediate :
    (∀ (α : Type) (fn : Nat → Except PyError α) (n b : Nat) (e : PyError),
      1 ≤ n → fn 1 = Except.error e → isTransient e = false →
      (retry_call fn n b).result = Except.error e ∧
      (retry_call fn n b).attempts = 1 ∧ (retry_call fn n b).sleeps = []) ∧
    (∀ (ruleNames incPs excPs : List String)
      (beh : String → Nat → Except PyError Unit) (r : String),
      r ∈ (classifyRules incPs excPs ruleNames).1 →
      (∀ e, (retry_call (beh r) DEFAULT_MAX_RETRIES DEFAULT_BACKOFF_SEC).result =
          Except.error e →
        r ∈ (delete_config_rules ruleNames incPs excPs false beh).errors ∧
        r ∉ (delete_config_rules ruleNames incPs excPs false beh).returned) ∧
      (∀ w, (retry_call (beh r) DEFAULT_MAX_RETRIES DEFAULT_BACKOFF_SEC).result =
          Except.ok w →
        r ∈ (delete_config_rules ruleNames incPs excPs false beh).returned)) := by
  constructor
  · intro α fn n b e hn hfe hte
    obtain ⟨m, rfl⟩ : ∃ m, n = m + 1 := ⟨n - 1, by omega⟩
    have h := retryAux_step_terminal fn (m + 1) b m 1 e (by omega) hfe hte
    simp [retry_call, h]
  · intro ruleNames incPs excPs beh r hmem
    have hne : ¬ ((classifyRules incPs excPs ruleNames).1.isEmpty = true) := by
      intro h
      rw [List.isEmpty_iff] at h
      rw [h] at hmem
      exact List.not_mem_nil r hmem
    have hstage : delete_config_rules ruleNames incPs excPs false beh =
        deleteLoop ArtifactKind.Rule id beh (classifyRules incPs excPs ruleNames).1 := by
      simp only [delete_config_rules]
      rw [if_neg hne]
      rfl
    constructor
    · intro e hres
      rw [hstage]
      refine ⟨deleteLoop_errors_of_fail hmem hres, ?_⟩
      intro hret
      rcases deleteLoop_returned_mem hret with ⟨r', hr1, hr2, w, hr3⟩
      simp only [id] at hr2
      rw [← hr2] at hr3
      rw [hres] at hr3
      cases hr3
    · intro w hres
      rw [hstage]
      exact deleteLoop_returned_of_ok hmem hres

/-- Witness for C6 at concrete inputs: a terminal error propagates after
one invocation, the failing rule is recorded as an error and not
deleted, and the succeeding rule after it is still deleted. -/
theorem c6_terminal_immediate_witness :
    ((retry_call fnTerminal 5 3).result = Except.error (PyError.other ("boom")) ∧
      (retry_call fnTerminal 5 3).attempts = 1) ∧
    (("bad-rule") ∈
        (delete_config_rules (["bad-rule", "good-rule"]) ([]) ([]) false behBadRule).errors ∧
      ("bad-rule") ∉
        (delete_config_rules (["bad-rule", "good-rule"]) ([]) ([]) false behBadRule).returned) ∧
    ("good-rule") ∈
      (delete_config_rules (["bad-rule", "good-rule"]) ([]) ([]) false behBadRule).returned := by
  refine ⟨?_, ?_, ?_⟩
  · have h := (c6_terminal_immediate).1 Nat fnTerminal 5 3 (PyError.other ("boom"))
      (by decide) rfl (by decide)
    exact ⟨h.1, h.2.1⟩
  · exact ((c6_terminal_immediate).2 (["bad-rule", "good-rule"]) ([]) ([]) behBadRule
      ("bad-rule") (by decide)).1 (PyError.client ("AccessDeniedException") ("denied")) rfl
  · exact ((c6_terminal_immediate).2 (["bad-rule", "good-rule"]) ([]) ([]) behBadRule
      ("good-rule") (by decide)).2 (some ()) rfl

theorem delete_remediation_trace_kind {pages : List (List String)} {dry : Bool}
    {beh : String → Nat → Except PyError Unit} {rec : ActionRecord} :
    rec ∈ (delete_remediation_configurations pages dry beh).trace →
      rec.kind = ArtifactKind.Remediation := by
  intro hrec
  simp only [delete_remediation_configurations] at hrec
  split at hrec
  · simp [emptyStage] at hrec
  · split at hrec
    · exact (plannedStage_trace_mem hrec).1
    · exact (deleteLoop_trace_mem hrec).1

theorem delete_packs_trace_kind {pages : List (List String)} {dry : Bool}
    {beh : String → Nat → Except PyError Unit} {rec : ActionRecord} :
    rec ∈ (delete_conformance_packs pages dry beh).trace →
      rec.kind = ArtifactKind.ConformancePack := by
  intro hrec
  simp only [delete_conformance_packs] at hrec
  split at hrec
  · simp [emptyStage] at hrec
  · split at hrec
    · exact (plannedStage_trace_mem hrec).1
    · exact (deleteLoop_trace_mem hrec).1

theorem rc_trace_decomp (recorders channels : List String) (dry : Bool)
    (behR behC : String → Nat → Except PyError Unit) :
    ∃ tr tc,
      (delete_config_recorders_and_channels recorders channels dry behR behC).trace =
        tr ++ tc ∧
      (∀ rec ∈ tr, rec.kind = ArtifactKind.Recorder) ∧
      (∀ rec ∈ tc, rec.kind = ArtifactKind.Channel) := by
  refine ⟨(if dry then plannedStage ArtifactKind.Recorder recorderTag recorders
      else deleteLoop ArtifactKind.Recorder recorderTag behR recorders).trace,
    (if dry then plannedStage ArtifactKind.Channel channelTag channels
      else deleteLoop ArtifactKind.Channel channelTag behC channels).trace,
    rfl, ?_, ?_⟩
  · intro rec hrec
    split at hrec
    · exact (plannedStage_trace_mem hrec).1
    · exact (deleteLoop_trace_mem hrec).1
  · intro rec hrec
    split at hrec
    · exact (plannedStage_trace_mem hrec).1
    · exact (deleteLoop_trace_mem hrec).1

/-- C2 (amended): the per-region pipeline emits its action records in
kind groups in the fixed order Rule, then RemediationBinding, then
ConformancePack, then Recorder, then DeliveryChannel — the order the
code actually implements (recorders are deleted rather than stopped,
recorders and channels come last, and there is no Aggregator stage) —
independent of the provider's listing order within each kind. -/
theorem c2_stage_order_amended (region : String) (env : RegionEnv) (args : Args) :
    ∃ nRule nRem nPack nRec nChan,
      ((region_reset_ok region env args).trace.map (fun rec => rec.kind)) =
        List.replicate nRule ArtifactKind.Rule ++
        List.replicate nRem ArtifactKind.Remediation ++
        List.replicate nPack ArtifactKind.ConformancePack ++
        List.replicate nRec ArtifactKind.Recorder ++
        List.replicate nChan ArtifactKind.Channel := by
  obtain ⟨tr, tc, hdecomp, hrk, hck⟩ := rc_trace_decomp env.recorders env.channels
    args.dryRun env.deleteRecorderBeh env.deleteChannelBeh
  have h1 : ∀ rec ∈ (if (list_config_rules env.rulePages).isEmpty then emptyStage
      else delete_config_rules (list_config_rules env.rulePages) args.includePatterns
        args.excludePatterns args.dryRun env.deleteRuleBeh).trace,
      rec.kind = ArtifactKind.Rule := by
    intro rec hrec
    split at hrec
    · simp [emptyStage] at hrec
    · exact (delete_config_rules_trace_mem hrec).1
  have h2 : ∀ rec ∈ (delete_remediation_configurations env.remediationPages
      args.dryRun env.deleteRemBeh).trace, rec.kind = ArtifactKind.Remediation :=
    fun rec hrec => delete_remediation_trace_kind hrec
  have h3 : ∀ rec ∈ (delete_conformance_packs env.packPages
      args.dryRun env.deletePackBeh).trace, rec.kind = ArtifactKind.ConformancePack :=
    fun rec hrec => delete_packs_trace_kind hrec
  refine ⟨(if (list_config_rules env.rulePages).isEmpty then emptyStage
      else delete_config_rules (list_config_rules env.rulePages) args.includePatterns
        args.excludePatterns args.dryRun env.deleteRuleBeh).trace.length,
    (delete_remediation_configurations env.remediationPages args.dryRun
      env.deleteRemBeh).trace.length,
    (delete_conformance_packs env.packPages args.dryRun env.deletePackBeh).trace.length,
    tr.length, tc.length, ?_⟩
  simp only [region_reset_ok]
  rw [hdecomp, List.map_append, List.map_append, List.map_append, List.map_append,
    map_kind_eq_replicate h1, map_kind_eq_replicate h2, map_kind_eq_replicate h3,
    map_kind_eq_replicate hrk, map_kind_eq_replicate hck]
  simp [List.append_assoc]

/-- C2 counterexample: in a region holding one artifact of every kind
the script handles, the emitted kind sequence is not ordered by the
specification's stage order (rules are processed first, recorders and
channels last). -/
theorem c2_stage_order_counterexample :
    ¬ List.Pairwise (fun a b => specStageIdx a ≤ specStageIdx b)
      ((region_reset_ok ("region-a") envFull argsDry).trace.map (fun rec => rec.kind)) := by
  decide

/-- C4 (amended): the consolidated report contains exactly one
per-region report for each requested region whose client construction
succeeded, in request order, each equal to the report that region's
pipeline produces in isolation; a region whose client construction
throws is logged and skipped, contributing no report, while the other
regions' reports are unaffected. -/
theorem c4_region_isolation_amended (args : Args) (envs : List (String × RegionEnv)) :
    main_reports args envs =
      (envs.filter (fun p => p.2.clientOk)).map
        (fun p => (region_reset_ok p.1 p.2 args).report) := by
  induction envs with
  | nil => rfl
  | cons p rest ih =>
    simp only [main_reports, main_regions_loop, region_reset] at ih ⊢
    by_cases h : p.2.clientOk
    · simp [h, List.filterMap_cons, List.filter_cons, ih]
    · simp [h, List.filterMap_cons, List.filter_cons, ih]

/-- C4 counterexample: of three requested regions where the middle
region's client construction throws, only two reports are produced and
the middle region is absent from the consolidated report. -/
theorem c4_region_isolation_counterexample :
    ((main_reports argsDry
        [("region-a", emptyEnv), ("region-b", envNoClient), ("region-c", emptyEnv)]).map
      (fun rep => rep.region)) = ["region-a", "region-c"] ∧
    (main_reports argsDry
        [("region-a", emptyEnv), ("region-b", envNoClient), ("region-c", emptyEnv)]).length ≠ 3 := by
  constructor <;> decide

/-- C7 (amended): the process exit status is 1 exactly when no region
selection argument was given; after processing it is always 0, even for
a run that produced per-artifact error records. -/
theorem c7_exit_code_amended :
    (∀ sel : Bool, main_exit_code sel = if sel then 0 else 1) ∧
    (∃ (args : Args) (envs : List (String × RegionEnv)),
      main_errors args envs ≠ [] ∧ main_exit_code true = 0) := by
  exact ⟨fun sel => rfl, ⟨argsLive, [("region-a", envFail)], by decide, rfl⟩⟩

/-- C7 counterexample: a live run whose only region records a
per-artifact deletion error still exits with status 0. -/
theorem c7_exit_code_counterexample :
    main_errors argsLive [("region-b", envFail)] ≠ [] ∧ main_exit_code true = 0 := by
  constructor
  · decide
  · rfl

/-- C8 (amended): only the Config-rule lister follows the continuation
token and accumulates every page; the conformance-pack and
remediation-configuration stages issue a single describe call and
process only the first page of their inventories. -/
theorem c8_pagination_amended :
    (∀ pages : List (List ConfigRule),
      list_config_rules pages = pages.flatten.map (fun r => r.name)) ∧
    (∀ (pages : List (List String)) (dry : Bool)
        (beh : String → Nat → Except PyError Unit),
      delete_conformance_packs pages dry beh =
        delete_conformance_packs [pages.headD []] dry beh) ∧
    (∀ (pages : List (List String)) (dry : Bool)
        (beh : String → Nat → Except PyError Unit),
      delete_remediation_configurations pages dry beh =
        delete_remediation_configurations [pages.headD []] dry beh) := by
  refine ⟨?_, fun pages dry beh => rfl, fun pages dry beh => rfl⟩
  intro pages
  simp only [list_config_rules]
  rw [listRulesLoop_eq_flatten, classifyListed_names]

/-- C8 counterexample: a conformance pack sitting on the provider's
second page is missed by the conformance-pack stage. -/
theorem c8_pagination_counterexample :
    (delete_conformance_packs ([["pack-p1"], ["pack-p2"]]) true
      (fun _ _ => Except.ok ())).returned = [("pack-p1")] ∧
    ("pack-p2") ∉ (delete_conformance_packs ([["pack-p1"], ["pack-p2"]]) true
      (fun _ _ => Except.ok ())).returned := by
  constructor <;> decide
